import Mathlib

/-!
Shallow embedding of the collection-orchestration subsystem of the
claims-finder-agent repository: the deduplication gate (`saveCase`),
the database query helpers it relies on, the job queues, the three
collectors, and the agentic orchestrator's prioritization and metrics
bookkeeping.  External collaborators (the extraction service, the
search service, the network and the database backend) are modelled as
explicit parameters: oracles and per-candidate outcome environments.
-/

namespace ClaimFinder

/-- The outcome record of one collector run (`types`: `CollectorResult`).
Wall-clock `duration` is not modelled; it is carried as an opaque field. -/
structure CollectorResult where
  sourceName : String
  casesFound : Nat
  casesProcessed : Nat
  errors : List String
  duration : Nat
deriving Repr, DecidableEq

/-- A provisional extracted candidate (`types`: `ExtractedCase`), restricted to
the fields the deduplication gate reads. -/
structure ExtractedCase where
  title : String
  description : String
  claimUrl : Option String
  category : Option String
deriving Repr, DecidableEq

/-- A persisted case row (`cases` table), restricted to the columns the
deduplication queries read.  `createdAt` is in hours. -/
structure StoredCase where
  title : String
  description : String
  claimUrl : Option String
  category : Option String
  status : String
  createdAt : Nat
deriving Repr, DecidableEq

/-- The in-memory view of the case store: the list of rows, in insertion order. -/
abbrev Store := List StoredCase

/-- The projection of a recent case passed to the semantic duplicate check
(`saveCase` maps recent cases to `{title, description, claimUrl, category}`). -/
structure RecentView where
  title : String
  description : String
  claimUrl : Option String
  category : Option String
deriving Repr, DecidableEq

/-- `DatabaseOperations.findCaseByUrl`: the stored case whose `claim_url`
equals `url`, if any. -/
def findCaseByUrl (st : Store) (url : String) : Option StoredCase :=
  st.find? fun c => c.claimUrl == some url

/-- Split a title into its space-separated words, as `title.split(' ')` does
(character-list form so that everything reduces structurally). -/
def wordsAux : List Char → List Char → List (List Char)
  | [], acc => if acc.isEmpty then [] else [acc.reverse]
  | c :: cs, acc =>
    if c = ' ' then
      if acc.isEmpty then wordsAux cs [] else acc.reverse :: wordsAux cs []
    else wordsAux cs (c :: acc)

/-- The words of a title. -/
def titleWords (t : String) : List (List Char) :=
  wordsAux t.toList []

/-- The Postgres text search `textSearch('title', words.join(' | '))` used by
`findSimilarCases`, modelled as: the stored title contains at least one word
of the candidate title. -/
def titleTextMatch (queryTitle storedTitle : String) : Bool :=
  (titleWords queryTitle).any fun w => (titleWords storedTitle).contains w

/-- `DatabaseOperations.findSimilarCases`: first the currently-active cases
whose title matches exactly; if there are none, up to 10 active cases matched
by the word-overlap text search. -/
def findSimilarCases (st : Store) (title : String) : List StoredCase :=
  let exact := st.filter fun c => c.title == title && c.status == "active"
  if exact.isEmpty then
    (st.filter fun c => c.status == "active" && titleTextMatch title c.title).take 10
  else exact

/-- Descending order on `createdAt`. -/
def createdDesc (a b : StoredCase) : Prop := b.createdAt ≤ a.createdAt

instance : DecidableRel createdDesc :=
  fun a b => inferInstanceAs (Decidable (b.createdAt ≤ a.createdAt))

/-- `DatabaseOperations.getRecentCasesForDuplicateCheck`: the active cases
created within the last `hours` hours, newest first. -/
def getRecentCasesForDuplicateCheck (st : Store) (now hours : Nat) : List StoredCase :=
  List.insertionSort createdDesc
    (st.filter fun c => c.status == "active" && decide (now ≤ c.createdAt + hours))

/-- `DatabaseOperations.createCase`: insert a fresh `active` row built from the
candidate. -/
def createCase (st : Store) (c : ExtractedCase) (now : Nat) : Store :=
  st ++ [{ title := c.title, description := c.description, claimUrl := c.claimUrl,
           category := c.category, status := "active", createdAt := now }]

/-- The result of one `saveCase` call: the resulting store, whether a new case
was created, and whether the semantic duplicate check was invoked. -/
structure SaveOutcome where
  store : Store
  saved : Bool
  semanticChecked : Bool
deriving Repr, DecidableEq

/-- The projection handed to the semantic duplicate check. -/
def recentView (c : StoredCase) : RecentView :=
  { title := c.title, description := c.description,
    claimUrl := c.claimUrl, category := c.category }

/-- Step 1 of `saveCase`: the candidate has a claim URL and some stored case
already carries it. -/
def claimUrlDup (st : Store) (c : ExtractedCase) : Bool :=
  match c.claimUrl with
  | some u => (findCaseByUrl st u).isSome
  | none => false

/-- Step 2 of `saveCase`: the source URL differs from the claim URL and some
stored case already carries the source URL. -/
def sourceUrlDup (st : Store) (c : ExtractedCase) (sourceUrl : String) : Prop :=
  c.claimUrl ≠ some sourceUrl ∧ (findCaseByUrl st sourceUrl).isSome

instance (st : Store) (c : ExtractedCase) (sourceUrl : String) :
    Decidable (sourceUrlDup st c sourceUrl) :=
  inferInstanceAs (Decidable (_ ∧ _))

/-- `BaseCollector.saveCase`: the four-step deduplication gate.  `oracle` is
the extraction service's `detectDuplicates` judgment, `now` the current hour.
Database reads and the final insert are modelled as total. -/
def saveCase (oracle : ExtractedCase → List RecentView → Bool) (now : Nat)
    (st : Store) (c : ExtractedCase) (sourceUrl : String) : SaveOutcome :=
  if claimUrlDup st c then ⟨st, false, false⟩
  else if sourceUrlDup st c sourceUrl then ⟨st, false, false⟩
  else if (findSimilarCases st c.title).isEmpty then ⟨createCase st c now, true, false⟩
  else if (getRecentCasesForDuplicateCheck st now 72).isEmpty then
    ⟨createCase st c now, true, false⟩
  else if oracle c ((getRecentCasesForDuplicateCheck st now 72).map recentView) then
    ⟨st, false, true⟩
  else ⟨createCase st c now, true, true⟩

/-- The two cheap URL checks of `saveCase` both pass. -/
def passesUrlChecks (st : Store) (c : ExtractedCase) (sourceUrl : String) : Prop :=
  claimUrlDup st c = false ∧ ¬sourceUrlDup st c sourceUrl

instance (st : Store) (c : ExtractedCase) (sourceUrl : String) :
    Decidable (passesUrlChecks st c sourceUrl) :=
  inferInstanceAs (Decidable (_ ∧ _))

/-- The currently-active stored cases whose title equals `title` exactly. -/
def exactTitleMatches (st : Store) (title : String) : List StoredCase :=
  st.filter fun c => c.title == title && c.status == "active"

/-! ## Job queues

`collector-queue.ts` configures two Bull queues; `InMemoryQueue` (in the
backend collector library) is the repository's own queue implementation. -/

/-- A Bull `backoff` option. -/
structure BackoffOpts where
  type : String
  delay : Nat
deriving Repr, DecidableEq

/-- A Bull retention option (`removeOnComplete` / `removeOnFail`): a count,
`true` (remove every job) or `false` (keep every job). -/
inductive KeepPolicy
  | keepCount (n : Nat)
  | removeAll
  | keepAll
deriving Repr, DecidableEq

/-- Bull `defaultJobOptions`. -/
structure JobOpts where
  attempts : Nat
  backoff : BackoffOpts
  removeOnComplete : KeepPolicy
  removeOnFail : KeepPolicy
deriving Repr, DecidableEq

/-- The collector queue's options in `setupQueues`. -/
def collectorQueueOpts : JobOpts :=
  { attempts := 3, backoff := ⟨"exponential", 5000⟩,
    removeOnComplete := .keepCount 100, removeOnFail := .keepCount 50 }

/-- The webhook queue's options in `setupQueues`. -/
def webhookQueueOpts : JobOpts :=
  { attempts := 5, backoff := ⟨"exponential", 2000⟩,
    removeOnComplete := .removeAll, removeOnFail := .keepAll }

/-- The collector queue's name in `setupQueues`. -/
def collectorQueueName : String := "collector-jobs"

/-- The webhook queue's name in `setupQueues`. -/
def webhookQueueName : String := "webhook-jobs"

/-- Worker concurrency registered for the collector queue. -/
def collectorConcurrency : Nat := 5

/-- Worker concurrency registered for the webhook queue. -/
def webhookConcurrency : Nat := 10

/-- One `InMemoryQueue` job record (`Job` in the backend collector library):
`finishedOn`/`returnvalue` are set on success, `failedReason` on failure. -/
structure IMJob where
  id : Nat
  finishedOn : Option Nat
  failedReason : Option String
  returnvalue : Option Nat
deriving Repr, DecidableEq

/-- The job list of an `InMemoryQueue`. -/
abbrev IMQueue := List IMJob

/-- A freshly added job (`InMemoryQueue.add`). -/
def mkIMJob (id : Nat) : IMJob :=
  { id := id, finishedOn := none, failedReason := none, returnvalue := none }

/-- A job is pending when it has neither finished nor failed
(the filter in `InMemoryQueue.processNext`). -/
def imPending (j : IMJob) : Bool :=
  j.finishedOn.isNone && j.failedReason.isNone

/-- Apply the processor outcome to one job: on success store the return value
and the finish time, on exception store the failure reason. -/
def imApply (handler : Nat → Except String Nat) (now : Nat) (j : IMJob) : IMJob :=
  match handler j.id with
  | .ok v => { j with returnvalue := some v, finishedOn := some now }
  | .error e => { j with failedReason := some e }

/-- `InMemoryQueue.processNext`: pick the first pending job and run the
processor on it once; a job that throws is marked failed immediately.  The
sequential effect of one invocation is modelled atomically. -/
def imProcessNext (handler : Nat → Except String Nat) (now : Nat) (q : IMQueue) : IMQueue :=
  match q.find? imPending with
  | none => q
  | some j => q.map fun j' => if j'.id = j.id ∧ imPending j' then imApply handler now j' else j'

/-- One scheduling tick: run `processNext` once, counting the processor
invocation when a pending job existed. -/
def imRunStep (handler : Nat → Except String Nat) (acc : IMQueue × Nat) (t : Nat) :
    IMQueue × Nat :=
  match acc.1.find? imPending with
  | none => acc
  | some _ => (imProcessNext handler t acc.1, acc.2 + 1)

/-- Run `processNext` at each time in `times`, counting how many processor
invocations actually happened. -/
def imRunSteps (handler : Nat → Except String Nat) (times : List Nat) (q : IMQueue) :
    IMQueue × Nat :=
  times.foldl (imRunStep handler) (q, 0)

/-- A job that has been marked failed with reason `e`. -/
def imFailedJob (j : Nat) (e : String) : IMJob :=
  { id := j, finishedOn := none, failedReason := some e, returnvalue := none }

/-- The terminal state Bull reports for a job. -/
inductive BullOutcome
  | completed (value : Nat) (attemptsUsed : Nat)
  | failed (reason : String) (attemptsUsed : Nat)
deriving Repr, DecidableEq

/-- Modelled from the spec: the Bull library's retry loop is not part of the
repository; per the spec the queue retries a throwing handler up to the
configured attempt budget and then transitions the job to `failed`, storing
the last failure reason.  `handler n` is the n-th attempt. -/
def bullGo (handler : Nat → Except String Nat) : Nat → String → Nat → BullOutcome
  | done, lastReason, 0 => .failed lastReason done
  | done, _, n + 1 =>
    match handler (done + 1) with
    | .ok v => .completed v (done + 1)
    | .error e => bullGo handler (done + 1) e n

/-- Modelled from the spec: run a job under Bull's retry policy with the
given attempt budget. -/
def bullRun (attempts : Nat) (handler : Nat → Except String Nat) : BullOutcome :=
  bullGo handler 0 "" attempts

/-- Modelled from the spec: the exponential backoff delays separating
`attemptsUsed` attempts — the base delay, doubling each retry. -/
def backoffDelays (base attemptsUsed : Nat) : List Nat :=
  (List.range (attemptsUsed - 1)).map fun k => base * 2 ^ k

/-! ## Collectors

Each collector's external effects (network fetches, the extraction service,
per-candidate persistence) are supplied as an outcome environment; the
control flow and counter bookkeeping of `collect` are embedded from the
source. -/

/-- What happened inside `FtcCollector.processPressRelease` for one press
release, up to the point where the control flow branches: the fetch or
parse threw, extraction threw, extraction found no opportunity (the method
returns normally), or a candidate was extracted and handed to `saveCase`. -/
inductive ReleaseStep
  | netError (msg : String)
  | tooShort
  | extractThrow (msg : String)
  | noCase
  | extracted (c : ExtractedCase)

/-- `FtcCollector.processPressRelease` on one release at `url`: errors
propagate as exceptions; a release with no extracted opportunity returns the
store unchanged; an extracted candidate (claim URL defaulted to the release
URL) goes through the `saveCase` deduplication gate. -/
def processPressRelease (oracle : ExtractedCase → List RecentView → Bool) (now : Nat)
    (st : Store) (url : String) : ReleaseStep → Except String Store
  | .netError m => .error m
  | .tooShort => .error "Press release content too short"
  | .extractThrow m => .error m
  | .noCase => .ok st
  | .extracted c =>
    let c' := if c.claimUrl.isNone then { c with claimUrl := some url } else c
    .ok (saveCase oracle now st c' url).store

/-- The environment of one `FtcCollector.collect` run: the source lookup
outcome, the press-release listing fetch outcome (each release with its
per-release processing step), the duplicate oracle and the clock. -/
structure FtcEnv where
  sourceOk : Except String Unit
  fetch : Except String (List (String × ReleaseStep))
  oracle : ExtractedCase → List RecentView → Bool
  now : Nat

/-- The loop body of `FtcCollector.collect`: a release that processes without
throwing increments `casesProcessed`; one that throws appends an error. -/
def ftcStep (oracle : ExtractedCase → List RecentView → Bool) (now : Nat)
    (acc : Nat × List String × Store) (r : String × ReleaseStep) :
    Nat × List String × Store :=
  match processPressRelease oracle now acc.2.2 r.1 r.2 with
  | .ok st => (acc.1 + 1, acc.2.1, st)
  | .error m =>
    (acc.1, acc.2.1 ++ [s!"Failed to process press release: {m}"], acc.2.2)

/-- `FtcCollector.collect`: counts found releases, processes each, and
returns the `CollectorResult` together with the resulting store.  A failure
before the loop leaves both counters at zero. -/
def ftcCollect (env : FtcEnv) (st : Store) : CollectorResult × Store :=
  match env.sourceOk with
  | .error m =>
    ({ sourceName := "FTC Press Releases", casesFound := 0, casesProcessed := 0,
       errors := [s!"FTC collection failed: {m}"], duration := 0 }, st)
  | .ok _ =>
    match env.fetch with
    | .error m =>
      ({ sourceName := "FTC Press Releases", casesFound := 0, casesProcessed := 0,
         errors := [s!"FTC collection failed: {m}"], duration := 0 }, st)
    | .ok releases =>
      let acc := releases.foldl (ftcStep env.oracle env.now) (0, [], st)
      ({ sourceName := "FTC Press Releases", casesFound := releases.length,
         casesProcessed := acc.1, errors := acc.2.1, duration := 0 }, acc.2.2)

/-- What happened for one Exa search result: extraction threw, extraction
returned nothing, or a candidate was extracted and `processCase` (source
upsert) either succeeded or failed. -/
inductive ExaResultStep
  | extractThrow (msg : String)
  | extractNone
  | extracted (c : ExtractedCase) (persistOk : Bool)

/-- One search category of `ExaCollector.collect`: its name and either a
search failure or the list of results with their per-result steps. -/
structure ExaCategory where
  name : String
  search : Except String (List (String × ExaResultStep))

/-- The environment of one `ExaCollector.collect` run. -/
structure ExaEnv where
  initOk : Except String Unit
  categories : List ExaCategory

/-- The per-result loop body of `ExaCollector.collect`: an extraction throw
appends an error; an extracted candidate increments `casesProcessed` exactly
when `processCase` (the upsert-based persistence path) reported success. -/
def exaResultFold (a : Nat × Nat × List String) (r : String × ExaResultStep) :
    Nat × Nat × List String :=
  match r.2 with
  | .extractThrow m => (a.1, a.2.1, a.2.2 ++ [s!"Failed to process {r.1}: {m}"])
  | .extractNone => a
  | .extracted _ persistOk => if persistOk then (a.1, a.2.1 + 1, a.2.2) else a

/-- The per-category loop body of `ExaCollector.collect`: a failed search
appends an error; a successful one adds its result count to `casesFound` and
runs the per-result loop. -/
def exaCategoryStep (acc : Nat × Nat × List String) (cat : ExaCategory) :
    Nat × Nat × List String :=
  match cat.search with
  | .error m => (acc.1, acc.2.1, acc.2.2 ++ [s!"Failed to collect {cat.name}: {m}"])
  | .ok results =>
    results.foldl exaResultFold (acc.1 + results.length, acc.2.1, acc.2.2)

/-- `ExaCollector.collect`: iterates the configured categories; a scraper
initialization failure reaches the outer catch before any category runs. -/
def exaCollect (env : ExaEnv) : CollectorResult :=
  match env.initOk with
  | .error m =>
    { sourceName := "Exa Web Search", casesFound := 0, casesProcessed := 0,
      errors := [s!"Exa collection failed: {m}"], duration := 0 }
  | .ok _ =>
    let acc := env.categories.foldl exaCategoryStep (0, 0, [])
    { sourceName := "Exa Web Search", casesFound := acc.1,
      casesProcessed := acc.2.1, errors := acc.2.2, duration := 0 }

/-- One target company of `SecCollector.collect`: its CIK and either a
company-level failure or the relevant recent filings, each recorded as
whether `processFiling` ran without throwing. -/
structure SecCompany where
  cik : String
  filings : Except String (List Bool)

/-- The environment of one `SecCollector.collect` run. -/
structure SecEnv where
  sourceOk : Except String Unit
  companies : List SecCompany

/-- `SecCollector.processCompany`: `found` is every relevant recent filing,
`processed` counts the filings among the 10 most recent whose processing did
not throw. -/
def secProcessCompany (filings : List Bool) : Nat × Nat :=
  (filings.length, (filings.take 10).countP id)

/-- The per-company loop body of `SecCollector.collect`. -/
def secCompanyStep (acc : Nat × Nat × List String) (co : SecCompany) :
    Nat × Nat × List String :=
  match co.filings with
  | .error m => (acc.1, acc.2.1, acc.2.2 ++ [s!"Failed to process company {co.cik}: {m}"])
  | .ok fs =>
    let r := secProcessCompany fs
    (acc.1 + r.1, acc.2.1 + r.2, acc.2.2)

/-- `SecCollector.collect`: iterates the target companies; a source lookup
failure reaches the outer catch before any company runs. -/
def secCollect (env : SecEnv) : CollectorResult :=
  match env.sourceOk with
  | .error m =>
    { sourceName := "SEC EDGAR Filings", casesFound := 0, casesProcessed := 0,
      errors := [s!"SEC collection failed: {m}"], duration := 0 }
  | .ok _ =>
    let acc := env.companies.foldl secCompanyStep (0, 0, [])
    { sourceName := "SEC EDGAR Filings", casesFound := acc.1,
      casesProcessed := acc.2.1, errors := acc.2.2, duration := 0 }

/-! ## AgenticOrchestrator

Prioritization, the forced-fallback rule of `runCollection`, and the rolling
performance metrics.  JavaScript numbers are modelled as exact rationals. -/

/-- One entry of `sourceEffectiveness`. -/
structure Effectiveness where
  successRate : ℚ
  avgQuality : ℚ
deriving Repr, DecidableEq

/-- The default used when `sourceEffectiveness` has no entry for a source:
`{ successRate: 0.5, avgQuality: 5 }`. -/
def defaultEffectiveness : Effectiveness :=
  { successRate := 0.5, avgQuality := 5 }

/-- One entry of the hardcoded `knownSources` list of `prioritizeSources`:
name and milliseconds since `lastChecked` (2, 6 and 4 hours). -/
structure KnownSource where
  name : String
  msSinceLastChecked : ℚ
deriving Repr, DecidableEq

/-- The `knownSources` list of `prioritizeSources`. -/
def knownSources : List KnownSource :=
  [⟨"Exa Web Search", 2 * 60 * 60 * 1000⟩,
   ⟨"FTC Press Releases", 6 * 60 * 60 * 1000⟩,
   ⟨"SEC EDGAR Filings", 4 * 60 * 60 * 1000⟩]

/-- The priority formula of `prioritizeSources`:
`successRate * 0.4 + (avgQuality / 10) * 0.3 + min(tMs / 3600000, 24) / 24 * 0.3`. -/
def priorityScore (e : Effectiveness) (tMs : ℚ) : ℚ :=
  e.successRate * 0.4 + e.avgQuality / 10 * 0.3 +
    min (tMs / (1000 * 60 * 60)) 24 / 24 * 0.3

/-- The quality component of the priority score. -/
def qualityTerm (e : Effectiveness) : ℚ := e.avgQuality / 10 * 0.3

/-- The recency component of the priority score. -/
def recencyTerm (tMs : ℚ) : ℚ := min (tMs / (1000 * 60 * 60)) 24 / 24 * 0.3

/-- One prioritized source. -/
structure PrioritizedSource where
  name : String
  priority : ℚ
deriving Repr, DecidableEq

/-- Descending order on priority (the `(a, b) => b.priority - a.priority`
comparator). -/
def priorityDesc (a b : PrioritizedSource) : Prop := b.priority ≤ a.priority

instance : DecidableRel priorityDesc :=
  fun a b => inferInstanceAs (Decidable (b.priority ≤ a.priority))

instance : IsTotal PrioritizedSource priorityDesc :=
  ⟨fun a b => le_total b.priority a.priority⟩

instance : IsTrans PrioritizedSource priorityDesc :=
  ⟨fun _ _ _ hab hbc => le_trans hbc hab⟩

/-- `AgenticOrchestrator.prioritizeSources`: score every known source (with
the neutral default for sources without effectiveness data) and sort in
descending priority order. -/
def prioritizeSources (eff : String → Option Effectiveness) : List PrioritizedSource :=
  let priorities := knownSources.map fun s =>
    { name := s.name,
      priority := priorityScore ((eff s.name).getD defaultEffectiveness) s.msSinceLastChecked }
  List.insertionSort priorityDesc priorities

/-- The admission-and-fallback phase of `AgenticOrchestrator.runCollection`:
`chooses` is the `shouldRunCollector` decision (strategy, query bank and
randomness folded into the oracle), `resultOf` the result each admitted
collector returns, and `exaForced` the result of the forced Exa run. -/
def runCollectionSelect (chooses : PrioritizedSource → Bool)
    (resultOf : String → CollectorResult) (exaForced : CollectorResult)
    (sources : List PrioritizedSource) : List String × List CollectorResult :=
  let run := sources.filter chooses
  let collectorsRun := run.map (·.name)
  let results := run.map fun s => resultOf s.name
  if collectorsRun.length = 0 ∨ (results.map (·.casesFound)).sum = 0 then
    (collectorsRun ++ ["Exa Web Search (forced)"], results ++ [exaForced])
  else
    (collectorsRun, results)

/-- The per-run success rate fed into the performance history:
`casesProcessed / casesFound`, or 0 when nothing was found. -/
def runSuccessRate (r : CollectorResult) : ℚ :=
  if r.casesFound > 0 then (r.casesProcessed : ℚ) / (r.casesFound : ℚ) else 0

/-- One source's orchestrator-side metrics state: the rolling history and the
latest effectiveness entry. -/
structure MetricsState where
  history : List ℚ
  eff : Option Effectiveness
deriving Repr, DecidableEq

/-- The initial metrics state of a source. -/
def initialMetrics : MetricsState := { history := [], eff := none }

/-- `AgenticOrchestrator.updatePerformanceMetrics` for one source: push the
run's success rate, drop the oldest sample beyond the 20-sample window, and
store the recomputed average with the constant quality 7. -/
def updatePerformanceMetrics (s : MetricsState) (r : CollectorResult) : MetricsState :=
  let pushed := s.history ++ [runSuccessRate r]
  let h := if pushed.length > 20 then pushed.tail else pushed
  { history := h, eff := some { successRate := h.sum / (h.length : ℚ), avgQuality := 7 } }

/-! ## Notifier

`setupQueues` wires the collector queue's terminal events to webhook
delivery jobs on the separate webhook queue; `processWebhookJob` throws on
any non-2xx response. -/

/-- Whether an HTTP status is a 2xx success (`response.ok`). -/
def statusOk (status : Nat) : Bool := 200 ≤ status && status < 300

/-- `processWebhookJob` for one attempt: a non-2xx response throws, which is
what makes Bull retry the delivery. -/
def processWebhookJob (status : Nat) : Except String Nat :=
  if statusOk status then .ok status else .error s!"Webhook failed with status {status}"

/-- Modelled from the spec: one webhook delivery under the webhook queue's
retry policy; `responses n` is the endpoint's status on the n-th attempt. -/
def webhookDeliver (responses : Nat → Nat) : BullOutcome :=
  bullRun webhookQueueOpts.attempts fun n => processWebhookJob (responses n)

/-- The combined state of the two queues that the Notifier touches: the
terminal states of collector jobs, and the pending webhook delivery jobs. -/
structure NotifyState where
  collectorJobs : List (Nat × BullOutcome)
  webhookJobs : List (Nat × String)
deriving Repr, DecidableEq

/-- The `completed` listener in `setupQueues`: when a webhook URL is
configured, enqueue a delivery job for the finished collector job; the
collector job itself is not touched. -/
def onCollectorCompleted (webhookUrlSet : Bool) (sys : NotifyState) (jobId : Nat) :
    NotifyState :=
  if webhookUrlSet then
    { sys with webhookJobs := sys.webhookJobs ++ [(jobId, "collection.completed")] }
  else sys

/-- Modelled from the spec: the webhook worker pool takes the next delivery
job and runs it to its terminal outcome; only the webhook queue changes. -/
def runNextWebhookJob (responses : Nat → Nat) (sys : NotifyState) :
    NotifyState × Option BullOutcome :=
  match sys.webhookJobs with
  | [] => (sys, none)
  | _ :: rest => ({ sys with webhookJobs := rest }, some (webhookDeliver responses))

/-! ## Observation counts and concrete instances -/

/-- A press release whose processing runs to the end of
`processPressRelease` without throwing: extraction found nothing (early
normal return) or a candidate went through the dedup gate. -/
def releaseCompletes : ReleaseStep → Bool
  | .noCase => true
  | .extracted _ => true
  | _ => false

/-- The number of releases of an FTC run that process without throwing. -/
def ftcCompletedCount (env : FtcEnv) : Nat :=
  match env.sourceOk, env.fetch with
  | .ok _, .ok releases => releases.countP fun r => releaseCompletes r.2
  | _, _ => 0

/-- An Exa search result that was extracted into a candidate and whose
persistence call succeeded. -/
def exaResultPersisted (r : String × ExaResultStep) : Bool :=
  match r.2 with
  | .extracted _ true => true
  | _ => false

/-- The number of results of one Exa category that were found. -/
def exaCategoryFoundCount (cat : ExaCategory) : Nat :=
  match cat.search with
  | .error _ => 0
  | .ok results => results.length

/-- The number of results of one Exa category that were extracted and
persisted. -/
def exaCategoryPersistedCount (cat : ExaCategory) : Nat :=
  match cat.search with
  | .error _ => 0
  | .ok results => results.countP exaResultPersisted

/-- The number of results of an Exa run that were extracted and persisted. -/
def exaPersistedCount (env : ExaEnv) : Nat :=
  match env.initOk with
  | .error _ => 0
  | .ok _ => (env.categories.map exaCategoryPersistedCount).sum

/-- The number of relevant filings one SEC company contributes to
`casesFound`. -/
def secCompanyFound (co : SecCompany) : Nat :=
  match co.filings with
  | .error _ => 0
  | .ok fs => fs.length

/-- The number of filings one SEC company contributes to `casesProcessed`. -/
def secCompanyProcessed (co : SecCompany) : Nat :=
  match co.filings with
  | .error _ => 0
  | .ok fs => (fs.take 10).countP id

/-- The number of filings of a SEC run whose processing completed without
throwing, among each company's 10 most recent relevant filings. -/
def secProcessedCount (env : SecEnv) : Nat :=
  match env.sourceOk with
  | .error _ => 0
  | .ok _ => (env.companies.map secCompanyProcessed).sum

/-- Concrete store of scenario 1: one case already stored under
`https://x.org/case-1`. -/
def demoStore : Store :=
  [{ title := "Acme corp refund", description := "stored case",
     claimUrl := some "https://x.org/case-1", category := none,
     status := "active", createdAt := 90 }]

/-- Concrete candidate of scenario 1: a second occurrence of the same claim
URL produced by a later collector run. -/
def demoCandidate : ExtractedCase :=
  { title := "Acme corp settlement", description := "second occurrence",
    claimUrl := some "https://x.org/case-1", category := none }

/-- Concrete candidate for C2: shares title words with the stored case but
does not match any stored title exactly, and has a fresh URL. -/
def fuzzyCandidate : ExtractedCase :=
  { title := "Acme corp settlement", description := "new candidate",
    claimUrl := some "https://b.org/2", category := none }

/-- A concrete FTC run with a single press release in which extraction finds
no consumer opportunity. -/
def noCaseFtcEnv : FtcEnv :=
  { sourceOk := .ok (), fetch := .ok [("https://ftc.gov/pr/1", .noCase)],
    oracle := fun _ _ => false, now := 0 }

/-! ## Theorems -/

/-- C1: a candidate whose claim URL is already carried by a stored case is
rejected by the `saveCase` deduplication gate: the call returns without
creating a case, and the store is unchanged. -/
theorem saveCase_rejects_duplicate_claim_url
    (oracle : ExtractedCase → List RecentView → Bool) (now : Nat)
    (st : Store) (c : ExtractedCase) (sourceUrl u : String)
    (hc : c.claimUrl = some u) (hdup : (findCaseByUrl st u).isSome = true) :
    saveCase oracle now st c sourceUrl = ⟨st, false, false⟩ := by
  have hd : claimUrlDup st c = true := by
    unfold claimUrlDup
    rw [hc]
    exact hdup
  unfold saveCase
  rw [hd]
  simp

/-- Witness for C1: scenario 1 at `https://x.org/case-1`. -/
theorem saveCase_rejects_duplicate_claim_url_witness :
    demoCandidate.claimUrl = some "https://x.org/case-1" ∧
    (findCaseByUrl demoStore "https://x.org/case-1").isSome = true ∧
    saveCase (fun _ _ => false) 100 demoStore demoCandidate "https://x.org/case-1" =
      ⟨demoStore, false, false⟩ :=
  ⟨rfl, by decide,
    saveCase_rejects_duplicate_claim_url _ _ _ _ _ _ rfl (by decide)⟩

/-- C2 counterexample: with the store of scenario 1 (whose only case is
active, created 10 hours ago, and shares the words `Acme corp` with the
candidate), no exact title match exists, yet `saveCase` does invoke the
semantic duplicate check — the fuzzy word-overlap text search of
`findSimilarCases` feeds step 4 — and an always-duplicate judgment rejects
the candidate instead of accepting it without the check. -/
theorem saveCase_semantic_without_exact_title_cex :
    ¬(exactTitleMatches demoStore fuzzyCandidate.title = [] →
        (saveCase (fun _ _ => true) 100 demoStore fuzzyCandidate "https://b.org/2").saved
            = true ∧
          (saveCase (fun _ _ => true) 100 demoStore fuzzyCandidate
              "https://b.org/2").semanticChecked = false) := by
  decide

/-- C2 amended: the semantic duplicate check is invoked only when
`findSimilarCases` returns matches (an exact active title match or, failing
that, an active word-overlap text-search match) and the 72-hour recent window
is non-empty; a candidate passing the URL checks with no similar-title match
is accepted without invoking the check; a candidate judged duplicate against
the recent window is rejected with the store unchanged. -/
theorem saveCase_semantic_check_policy
    (oracle : ExtractedCase → List RecentView → Bool) (now : Nat)
    (st : Store) (c : ExtractedCase) (sourceUrl : String) :
    ((saveCase oracle now st c sourceUrl).semanticChecked = true →
      findSimilarCases st c.title ≠ [] ∧
        getRecentCasesForDuplicateCheck st now 72 ≠ []) ∧
    (passesUrlChecks st c sourceUrl → findSimilarCases st c.title = [] →
      saveCase oracle now st c sourceUrl = ⟨createCase st c now, true, false⟩) ∧
    (passesUrlChecks st c sourceUrl →
      findSimilarCases st c.title ≠ [] →
      getRecentCasesForDuplicateCheck st now 72 ≠ [] →
      oracle c ((getRecentCasesForDuplicateCheck st now 72).map recentView) = true →
      saveCase oracle now st c sourceUrl = ⟨st, false, true⟩) := by
  unfold saveCase
  refine ⟨?_, ?_, ?_⟩
  · intro h
    split_ifs at h with h1 h2 h3 h4 h5
    all_goals simp_all [List.isEmpty_iff]
  · rintro ⟨hu, hs⟩ hsim
    rw [hu]
    simp only [Bool.false_eq_true, if_false, if_neg hs]
    rw [if_pos (by simp [List.isEmpty_iff, hsim])]
  · rintro ⟨hu, hs⟩ hsim hrec horacle
    rw [hu]
    simp only [Bool.false_eq_true, if_false, if_neg hs]
    rw [if_neg (by simp [List.isEmpty_iff, hsim]),
      if_neg (by simp [List.isEmpty_iff, hrec]), if_pos horacle]

/-- Witness for C2 (amended): the semantic check rejects the concrete fuzzy
candidate against the scenario-1 store. -/
theorem saveCase_semantic_check_policy_witness :
    passesUrlChecks demoStore fuzzyCandidate "https://b.org/2" ∧
    findSimilarCases demoStore fuzzyCandidate.title ≠ [] ∧
    getRecentCasesForDuplicateCheck demoStore 100 72 ≠ [] ∧
    saveCase (fun _ _ => true) 100 demoStore fuzzyCandidate "https://b.org/2" =
      ⟨demoStore, false, true⟩ :=
  ⟨by decide, by decide, by decide,
    (saveCase_semantic_check_policy (fun _ _ => true) 100 demoStore fuzzyCandidate
      "https://b.org/2").2.2 (by decide) (by decide) (by decide) rfl⟩

/-- An always-throwing handler drives `bullGo` through every remaining
attempt and ends failed, carrying the last reason and the attempt count. -/
theorem bullGo_all_fail (handler : Nat → Except String Nat) (err : Nat → String)
    (h : ∀ n, handler n = .error (err n)) :
    ∀ n done last, bullGo handler done last (n + 1) =
      .failed (err (done + n + 1)) (done + n + 1) := by
  intro n
  induction n with
  | zero =>
    intro done last
    simp [bullGo, h (done + 1)]
  | succ m ih =>
    intro done last
    have step : bullGo handler done last (m + 1 + 1) =
        bullGo handler (done + 1) (err (done + 1)) (m + 1) := by
      simp [bullGo, h (done + 1)]
    rw [step, ih (done + 1) (err (done + 1))]
    have harith : done + 1 + m + 1 = done + (m + 1) + 1 := by omega
    rw [harith]

/-- A queue with no pending job is a fixed point of the scheduling loop. -/
theorem imRunSteps_fixed (handler : Nat → Except String Nat) :
    ∀ (times : List Nat) (acc : IMQueue × Nat),
      acc.1.find? imPending = none → times.foldl (imRunStep handler) acc = acc := by
  intro times
  induction times with
  | nil => intro acc _; rfl
  | cons t ts ih =>
    intro acc hq
    have : imRunStep handler acc t = acc := by
      unfold imRunStep
      rw [hq]
    rw [List.foldl_cons, this]
    exact ih acc hq

/-- A failed job is never pending again. -/
theorem imFailedJob_not_pending (j : Nat) (e : String) :
    ([imFailedJob j e] : IMQueue).find? imPending = none := by
  simp [imFailedJob, imPending, List.find?]

/-- C3 counterexample: on the repository's own `InMemoryQueue`, a job whose
handler throws on every attempt is marked failed — with the reason stored —
after exactly ONE processor invocation over five scheduling ticks; it is not
retried, so it does not reach the claimed budget of 3 attempts. -/
theorem inMemoryQueue_single_attempt_cex :
    (imRunSteps (fun _ => .error "boom") [0, 1, 2, 3, 4] [mkIMJob 1]).2 = 1 ∧
    ¬(imRunSteps (fun _ => .error "boom") [0, 1, 2, 3, 4] [mkIMJob 1]).2 = 3 ∧
    (imRunSteps (fun _ => .error "boom") [0, 1, 2, 3, 4] [mkIMJob 1]).1 =
      [imFailedJob 1 "boom"] := by
  decide

/-- C3 amended: the Bull collector queue is configured with an attempt budget
of 3 and exponential backoff from 5 seconds, under which (retry machinery
modelled from the spec) an always-throwing handler ends failed after exactly
3 attempts with the last failure reason stored, never completed, with backoff
delays 5s and 10s between attempts; the repository's `InMemoryQueue`, by
contrast, marks such a job failed after a single attempt — storing the
failure reason — and never retries or completes it. -/
theorem job_failure_retry_policy :
    collectorQueueOpts.attempts = 3 ∧
    collectorQueueOpts.backoff = ⟨"exponential", 5000⟩ ∧
    backoffDelays collectorQueueOpts.backoff.delay collectorQueueOpts.attempts =
      [5000, 10000] ∧
    (∀ (handler : Nat → Except String Nat) (err : Nat → String),
      (∀ n, handler n = .error (err n)) →
      bullRun collectorQueueOpts.attempts handler = .failed (err 3) 3) ∧
    (∀ (handler : Nat → Except String Nat) (err : Nat → String),
      (∀ n, handler n = .error (err n)) →
      ∀ now j, imProcessNext handler now [mkIMJob j] = [imFailedJob j (err j)]) ∧
    (∀ (handler : Nat → Except String Nat) (times : List Nat) (j : Nat) (e : String),
      imRunSteps handler times [imFailedJob j e] = ([imFailedJob j e], 0)) := by
  refine ⟨rfl, rfl, by decide, ?_, ?_, ?_⟩
  · intro handler err h
    have := bullGo_all_fail handler err h 2 0 ""
    simpa [bullRun, collectorQueueOpts] using this
  · intro handler err h now j
    simp [imProcessNext, mkIMJob, imPending, imApply, imFailedJob, List.find?, h j]
  · intro handler times j e
    exact imRunSteps_fixed handler times _ (imFailedJob_not_pending j e)

/-- Witness for C3 (amended): a concrete handler that always throws `boom`. -/
theorem job_failure_retry_policy_witness :
    bullRun collectorQueueOpts.attempts (fun _ => .error "boom") = .failed "boom" 3 ∧
    imProcessNext (fun _ => .error "boom") 7 [mkIMJob 1] = [imFailedJob 1 "boom"] ∧
    imRunSteps (fun _ => .error "boom") [8, 9] [imFailedJob 1 "boom"] =
      ([imFailedJob 1 "boom"], 0) :=
  ⟨job_failure_retry_policy.2.2.2.1 _ (fun _ => "boom") (fun _ => rfl),
   job_failure_retry_policy.2.2.2.2.1 _ (fun _ => "boom") (fun _ => rfl) 7 1,
   job_failure_retry_policy.2.2.2.2.2 _ [8, 9] 1 "boom"⟩

/-- The processed counter of the FTC loop counts exactly the releases that
process without throwing. -/
theorem ftcStep_foldl_processed (oracle : ExtractedCase → List RecentView → Bool)
    (now : Nat) :
    ∀ (releases : List (String × ReleaseStep)) (acc : Nat × List String × Store),
      (releases.foldl (ftcStep oracle now) acc).1 =
        acc.1 + releases.countP (fun r => releaseCompletes r.2) := by
  intro releases
  induction releases with
  | nil => intro acc; simp
  | cons r rs ih =>
    intro acc
    rw [List.foldl_cons, ih]
    rcases r with ⟨url, step⟩
    cases step <;>
      simp [ftcStep, processPressRelease, releaseCompletes, List.countP_cons] <;>
      omega

/-- The found counter of the Exa per-result loop is untouched. -/
theorem exaResultFold_found :
    ∀ (results : List (String × ExaResultStep)) (a : Nat × Nat × List String),
      (results.foldl exaResultFold a).1 = a.1 := by
  intro results
  induction results with
  | nil => intro a; rfl
  | cons r rs ih =>
    intro a
    rw [List.foldl_cons, ih]
    rcases r with ⟨url, step⟩
    cases step with
    | extractThrow m => rfl
    | extractNone => rfl
    | extracted c persistOk => cases persistOk <;> rfl

/-- The processed counter of the Exa per-result loop counts exactly the
extracted-and-persisted results. -/
theorem exaResultFold_processed :
    ∀ (results : List (String × ExaResultStep)) (a : Nat × Nat × List String),
      (results.foldl exaResultFold a).2.1 = a.2.1 + results.countP exaResultPersisted := by
  intro results
  induction results with
  | nil => intro a; simp
  | cons r rs ih =>
    intro a
    rw [List.foldl_cons, ih]
    rcases r with ⟨url, step⟩
    cases step with
    | extractThrow m => simp [exaResultFold, exaResultPersisted, List.countP_cons]
    | extractNone => simp [exaResultFold, exaResultPersisted, List.countP_cons]
    | extracted c persistOk =>
      cases persistOk <;>
        · simp [exaResultFold, exaResultPersisted, List.countP_cons]
          try omega

/-- The category loop of the Exa collector accumulates the per-category found
and persisted counts. -/
theorem exaCategoryStep_foldl :
    ∀ (cats : List ExaCategory) (acc : Nat × Nat × List String),
      (cats.foldl exaCategoryStep acc).1 =
          acc.1 + (cats.map exaCategoryFoundCount).sum ∧
        (cats.foldl exaCategoryStep acc).2.1 =
          acc.2.1 + (cats.map exaCategoryPersistedCount).sum := by
  intro cats
  induction cats with
  | nil => intro acc; simp
  | cons cat rest ih =>
    intro acc
    rw [List.foldl_cons]
    rcases ih (exaCategoryStep acc cat) with ⟨ihf, ihp⟩
    rw [ihf, ihp]
    rcases cat with ⟨name, search⟩
    cases search with
    | error m =>
      simp [exaCategoryStep, exaCategoryFoundCount, exaCategoryPersistedCount]
    | ok results =>
      simp [exaCategoryStep, exaCategoryFoundCount, exaCategoryPersistedCount,
        exaResultFold_found, exaResultFold_processed]
      constructor <;> ring

/-- The company loop of the SEC collector accumulates the per-company found
and processed counts. -/
theorem secCompanyStep_foldl :
    ∀ (cos : List SecCompany) (acc : Nat × Nat × List String),
      (cos.foldl secCompanyStep acc).1 = acc.1 + (cos.map secCompanyFound).sum ∧
        (cos.foldl secCompanyStep acc).2.1 =
          acc.2.1 + (cos.map secCompanyProcessed).sum := by
  intro cos
  induction cos with
  | nil => intro acc; simp
  | cons co rest ih =>
    intro acc
    rw [List.foldl_cons]
    rcases ih (secCompanyStep acc co) with ⟨ihf, ihp⟩
    rw [ihf, ihp]
    rcases co with ⟨cik, filings⟩
    cases filings with
    | error m =>
      simp [secCompanyStep, secCompanyFound, secCompanyProcessed]
    | ok fs =>
      simp [secCompanyStep, secCompanyFound, secCompanyProcessed, secProcessCompany]
      constructor <;> ring

/-- C4: for every environment, each of the three collectors returns a
`CollectorResult` whose `casesProcessed` does not exceed `casesFound`. -/
theorem casesProcessed_le_casesFound :
    (∀ (env : FtcEnv) (st : Store),
      (ftcCollect env st).1.casesProcessed ≤ (ftcCollect env st).1.casesFound) ∧
    (∀ env : ExaEnv, (exaCollect env).casesProcessed ≤ (exaCollect env).casesFound) ∧
    (∀ env : SecEnv, (secCollect env).casesProcessed ≤ (secCollect env).casesFound) := by
  refine ⟨?_, ?_, ?_⟩
  · intro env st
    unfold ftcCollect
    cases env.sourceOk with
    | error m => simp
    | ok _ =>
      cases hf : env.fetch with
      | error m => simp
      | ok releases =>
        simp only
        rw [ftcStep_foldl_processed]
        calc 0 + releases.countP (fun r => releaseCompletes r.2)
            ≤ releases.countP (fun r => releaseCompletes r.2) := by omega
          _ ≤ releases.length := List.countP_le_length _
  · intro env
    unfold exaCollect
    cases env.initOk with
    | error m => simp
    | ok _ =>
      simp only
      rcases exaCategoryStep_foldl env.categories (0, 0, []) with ⟨hf, hp⟩
      rw [hf, hp]
      simp only [Nat.zero_add]
      refine List.sum_le_sum ?_
      intro cat _
      rcases cat with ⟨name, search⟩
      cases search with
      | error m => simp [exaCategoryFoundCount, exaCategoryPersistedCount]
      | ok results =>
        simpa [exaCategoryFoundCount, exaCategoryPersistedCount] using
          List.countP_le_length (l := results) exaResultPersisted
  · intro env
    unfold secCollect
    cases env.sourceOk with
    | error m => simp
    | ok _ =>
      simp only
      rcases secCompanyStep_foldl env.companies (0, 0, []) with ⟨hf, hp⟩
      rw [hf, hp]
      simp only [Nat.zero_add]
      refine List.sum_le_sum ?_
      intro co _
      rcases co with ⟨cik, filings⟩
      cases filings with
      | error m => simp [secCompanyFound, secCompanyProcessed]
      | ok fs =>
        simp only [secCompanyFound, secCompanyProcessed]
        calc (fs.take 10).countP id ≤ (fs.take 10).length := List.countP_le_length _
          _ ≤ fs.length := by
              rw [List.length_take]
              omega

/-- C5 counterexample: an FTC run over a single press release in which
extraction finds no consumer opportunity reports `casesProcessed = 1` even
though zero candidates were extracted, deduplicated and persisted (the store
stays empty), so `casesProcessed` does not count exactly the candidates that
passed extraction, dedup and persistence. -/
theorem ftc_counts_unsaved_release_cex :
    (ftcCollect noCaseFtcEnv []).1.casesProcessed = 1 ∧
    (ftcCollect noCaseFtcEnv []).2 = [] ∧
    ¬((ftcCollect noCaseFtcEnv []).1.casesProcessed =
        ((ftcCollect noCaseFtcEnv []).2).length - ([] : Store).length) := by
  refine ⟨rfl, rfl, by decide⟩

/-- C5 amended: the FTC collector's `casesProcessed` counts exactly the
releases whose per-release processing completed without throwing, and the SEC
collector's counts exactly the filings — among each company's 10 most recent
relevant filings — whose processing completed without throwing; both counts
include candidates that yielded no extracted case and candidates the dedup
gate skipped.  The backend Exa collector's `casesProcessed` counts exactly
the results that were extracted and successfully persisted. -/
theorem casesProcessed_counting :
    (∀ (env : FtcEnv) (st : Store),
      (ftcCollect env st).1.casesProcessed = ftcCompletedCount env) ∧
    (∀ env : SecEnv, (secCollect env).casesProcessed = secProcessedCount env) ∧
    (∀ env : ExaEnv, (exaCollect env).casesProcessed = exaPersistedCount env) := by
  refine ⟨?_, ?_, ?_⟩
  · intro env st
    unfold ftcCollect ftcCompletedCount
    cases env.sourceOk with
    | error m => rfl
    | ok _ =>
      cases env.fetch with
      | error m => rfl
      | ok releases =>
        simp only
        rw [ftcStep_foldl_processed]
        simp
  · intro env
    unfold secCollect secProcessedCount
    cases env.sourceOk with
    | error m => rfl
    | ok _ =>
      simp only
      rcases secCompanyStep_foldl env.companies (0, 0, []) with ⟨_, hp⟩
      rw [hp]
      simp
  · intro env
    unfold exaCollect exaPersistedCount
    cases env.initOk with
    | error m => rfl
    | ok _ =>
      simp only
      rcases exaCategoryStep_foldl env.categories (0, 0, []) with ⟨_, hp⟩
      rw [hp]
      simp

/-- C6: in every collection cycle, if no source was admitted or the admitted
sources' results sum to zero cases found, the designated fallback Exa
collector is forced to run; in every case at least one collector runs. -/
theorem runCollection_forward_progress
    (chooses : PrioritizedSource → Bool) (resultOf : String → CollectorResult)
    (exaForced : CollectorResult) (sources : List PrioritizedSource) :
    (runCollectionSelect chooses resultOf exaForced sources).1 ≠ [] ∧
    ((sources.filter chooses = [] ∨
        ((((sources.filter chooses).map fun s => resultOf s.name)).map
          (·.casesFound)).sum = 0) →
      "Exa Web Search (forced)" ∈ (runCollectionSelect chooses resultOf exaForced sources).1) := by
  simp only [runCollectionSelect]
  constructor
  · split_ifs with h
    · simp
    · push_neg at h
      intro hnil
      have hmap : List.map (fun s => s.name) (List.filter chooses sources) = [] := hnil
      exact h.1 (by rw [hmap]; rfl)
  · intro h
    have hcond : ((sources.filter chooses).map (·.name)).length = 0 ∨
        ((((sources.filter chooses).map fun s => resultOf s.name)).map
          (·.casesFound)).sum = 0 := by
      rcases h with h | h
      · left
        rw [h]
        rfl
      · right
        exact h
    rw [if_pos hcond]
    exact List.mem_append_right _ (by simp)

/-- Witness for C6: a cycle in which the admission rule rejects every source
still runs the forced Exa collector. -/
theorem runCollection_forward_progress_witness :
    "Exa Web Search (forced)" ∈
      (runCollectionSelect (fun _ => false)
        (fun n => { sourceName := n, casesFound := 0, casesProcessed := 0,
                    errors := [], duration := 0 })
        { sourceName := "Exa Web Search", casesFound := 0, casesProcessed := 0,
          errors := [], duration := 0 }
        [{ name := "Exa Web Search", priority := 1 }]).1 :=
  (runCollection_forward_progress (fun _ => false)
    (fun n => { sourceName := n, casesFound := 0, casesProcessed := 0,
                errors := [], duration := 0 })
    { sourceName := "Exa Web Search", casesFound := 0, casesProcessed := 0,
      errors := [], duration := 0 }
    [{ name := "Exa Web Search", priority := 1 }]).2 (Or.inl (by decide))

/-- C7: every known source's priority is the weighted combination
`0.4 · successRate + 0.3 · (avgQuality / 10) + 0.3 · (min(hoursSince, 24) / 24)`
(with the neutral default effectiveness when no data exists), and
`prioritizeSources` returns exactly the known sources sorted in descending
priority order. -/
theorem prioritizeSources_formula_and_order (eff : String → Option Effectiveness) :
    (prioritizeSources eff).Sorted priorityDesc ∧
    List.Perm (prioritizeSources eff)
      [{ name := "Exa Web Search",
         priority := priorityScore ((eff "Exa Web Search").getD defaultEffectiveness)
           (2 * 60 * 60 * 1000) },
       { name := "FTC Press Releases",
         priority := priorityScore ((eff "FTC Press Releases").getD defaultEffectiveness)
           (6 * 60 * 60 * 1000) },
       { name := "SEC EDGAR Filings",
         priority := priorityScore ((eff "SEC EDGAR Filings").getD defaultEffectiveness)
           (4 * 60 * 60 * 1000) }] ∧
    ∀ (e : Effectiveness) (tMs : ℚ),
      priorityScore e tMs =
        0.4 * e.successRate + 0.3 * (e.avgQuality / 10) +
          0.3 * (min (tMs / 3600000) 24 / 24) := by
  refine ⟨List.sorted_insertionSort priorityDesc _, ?_, ?_⟩
  · exact List.perm_insertionSort priorityDesc _
  · intro e tMs
    unfold priorityScore
    have h36 : (1000 * 60 * 60 : ℚ) = 3600000 := by norm_num
    rw [h36]
    ring

/-- C8: after any number of metric updates the per-source history retains at
most 20 samples, and the recorded success rate is always the mean of the
retained samples (with the constant quality 7). -/
theorem performanceRecord_window_and_mean :
    (∀ rs : List CollectorResult,
      (rs.foldl updatePerformanceMetrics initialMetrics).history.length ≤ 20) ∧
    (∀ (rs : List CollectorResult) (r : CollectorResult),
      ((rs ++ [r]).foldl updatePerformanceMetrics initialMetrics).eff =
        some (Effectiveness.mk
          (((rs ++ [r]).foldl updatePerformanceMetrics initialMetrics).history.sum /
            (((rs ++ [r]).foldl updatePerformanceMetrics initialMetrics).history.length : ℚ))
          7)) := by
  have hlen : ∀ (s : MetricsState) (r : CollectorResult), s.history.length ≤ 20 →
      (updatePerformanceMetrics s r).history.length ≤ 20 := by
    intro s r hs
    simp only [updatePerformanceMetrics]
    split_ifs with h <;>
      simp only [List.length_tail, List.length_append, List.length_cons,
        List.length_nil] at h ⊢ <;>
      omega
  have hfold : ∀ (rs : List CollectorResult) (s : MetricsState),
      s.history.length ≤ 20 →
        (rs.foldl updatePerformanceMetrics s).history.length ≤ 20 := by
    intro rs
    induction rs with
    | nil => intro s hs; exact hs
    | cons r rest ih =>
      intro s hs
      rw [List.foldl_cons]
      exact ih _ (hlen s r hs)
  constructor
  · intro rs
    exact hfold rs initialMetrics (by simp [initialMetrics])
  · intro rs r
    rw [List.foldl_append]
    rfl

/-- C9: the Notifier delivers webhook events on a separate queue with a
retry budget of 5 and a shorter backoff than the collector queue; an endpoint
that never returns 2xx makes the delivery job fail after exactly 5 attempts
with the last failure reason, and neither the enqueue on completion nor the
delivery touches the originating collector job's state. -/
theorem webhook_notifier_policy :
    webhookQueueOpts.attempts = 5 ∧
    webhookQueueOpts.backoff.delay = 2000 ∧
    webhookQueueOpts.backoff.delay < collectorQueueOpts.backoff.delay ∧
    webhookQueueName ≠ collectorQueueName ∧
    webhookConcurrency = 10 ∧
    (∀ responses : Nat → Nat, (∀ n, statusOk (responses n) = false) →
      webhookDeliver responses =
        .failed s!"Webhook failed with status {responses 5}" 5) ∧
    (∀ (flag : Bool) (sys : NotifyState) (jobId : Nat) (responses : Nat → Nat),
      ((runNextWebhookJob responses (onCollectorCompleted flag sys jobId)).1).collectorJobs
        = sys.collectorJobs) := by
  refine ⟨rfl, rfl, by decide, by decide, rfl, ?_, ?_⟩
  · intro responses h
    have herr : ∀ n, processWebhookJob (responses n) =
        .error s!"Webhook failed with status {responses n}" := by
      intro n
      unfold processWebhookJob
      rw [h n]
      simp
    have hrun := bullGo_all_fail (fun n => processWebhookJob (responses n))
      (fun n => s!"Webhook failed with status {responses n}") herr 4 0 ""
    simpa [webhookDeliver, bullRun, webhookQueueOpts] using hrun
  · intro flag sys jobId responses
    cases flag <;> cases hw : sys.webhookJobs <;>
      simp [onCollectorCompleted, runNextWebhookJob, hw]

/-- Witness for C9: an endpoint that always answers 500. -/
theorem webhook_notifier_policy_witness :
    webhookDeliver (fun _ => 500) = .failed "Webhook failed with status 500" 5 :=
  webhook_notifier_policy.2.2.2.2.2.1 (fun _ => 500) (fun _ => rfl)

/-- C10 counterexample: with no performance data (a fresh orchestrator), the
quality term of a source's priority is `0.3 · (5 / 10) = 0.15`, not the
claimed constant `0.21`, and the claimed decomposition of the priority score
with a `0.21` quality term fails for the default effectiveness. -/
theorem default_quality_term_cex :
    qualityTerm ((((fun _ => none) : String → Option Effectiveness)
      "Exa Web Search").getD defaultEffectiveness) = 3 / 20 ∧
    (3 / 20 : ℚ) ≠ 21 / 100 ∧
    priorityScore defaultEffectiveness (2 * 60 * 60 * 1000) ≠
      defaultEffectiveness.successRate * 0.4 + 21 / 100 +
        recencyTerm (2 * 60 * 60 * 1000) := by
  refine ⟨by norm_num [qualityTerm, defaultEffectiveness], by norm_num, ?_⟩
  have hmin : min ((2 * 60 * 60 * 1000 : ℚ) / (1000 * 60 * 60)) 24 = 2 := by
    rw [min_eq_left (by norm_num)]
    norm_num
  simp only [priorityScore, recencyTerm, defaultEffectiveness, hmin]
  norm_num

/-- C10 amended: every metrics update stores the constant quality 7, so every
source that has received at least one update has the constant quality term
`0.21` and differences between such sources' priorities come only from the
success-rate and recency terms; a source with no updates uses the neutral
default quality 5, whose term is `0.15`. -/
theorem quality_term_constant_after_update :
    (∀ (s : MetricsState) (r : CollectorResult),
      ∃ sr, (updatePerformanceMetrics s r).eff = some ⟨sr, 7⟩ ∧
        qualityTerm ⟨sr, 7⟩ = 21 / 100) ∧
    qualityTerm defaultEffectiveness = 3 / 20 ∧
    (∀ (e : Effectiveness) (tMs : ℚ),
      priorityScore e tMs = e.successRate * 0.4 + qualityTerm e + recencyTerm tMs) ∧
    (∀ (e₁ e₂ : Effectiveness) (t₁ t₂ : ℚ), e₁.avgQuality = e₂.avgQuality →
      priorityScore e₁ t₁ - priorityScore e₂ t₂ =
        (e₁.successRate - e₂.successRate) * 0.4 +
          (recencyTerm t₁ - recencyTerm t₂)) := by
  refine ⟨?_, by norm_num [qualityTerm, defaultEffectiveness], ?_, ?_⟩
  · intro s r
    exact ⟨_, rfl, by norm_num [qualityTerm]⟩
  · intro e tMs
    unfold priorityScore qualityTerm recencyTerm
    ring
  · intro e₁ e₂ t₁ t₂ h
    unfold priorityScore recencyTerm
    rw [h]
    ring

/-- Witness for C10 (amended): two updated sources with equal quality 7. -/
theorem quality_term_constant_after_update_witness :
    priorityScore ⟨1, 7⟩ 0 - priorityScore ⟨0, 7⟩ 0 =
      ((1 : ℚ) - 0) * 0.4 + (recencyTerm 0 - recencyTerm 0) :=
  quality_term_constant_after_update.2.2.2 ⟨1, 7⟩ ⟨0, 7⟩ 0 0 rfl

end ClaimFinder
